import Mathlib

/-!
A shallow embedding of `esp32-Mouse-Jiggler.ino` (ESP32-S3 mouse jiggler).

Modelling conventions:
* `unsigned long` (32-bit on this target) timestamps are `ℕ` reduced mod
  `W = 2^32`; the C expression `a - b` on `unsigned long` is `wsub a b`.
* `millis()` reads are passed in as explicit `ℕ` parameters (true time);
  the machine observes `t % W`.  Each loop iteration is modelled with a
  single time reading, except for the reading that happens after the
  blocking 100 ms LED pulse, which is a separate parameter `schedNow`.
* `float` arithmetic is modelled over `ℝ`; `lroundf` (round half away
  from zero) is modelled by `lroundf : ℝ → ℤ` below.
* The Arduino RNG `random(min, max)` returns an integer in `[min, max-1]`
  (the upper bound is exclusive, per the Arduino API).  Draws are passed
  in as explicit parameters constrained by `rngOK min max`.
* `Mouse.move` and the LED are modelled as outputs: a step produces an
  optional `(dx, dy)` event and a pulse flag; the LED level is a field of
  the system state.
-/

/-- `2^32`, the modulus of `unsigned long` arithmetic on the ESP32-S3. -/
def W : ℕ := 4294967296

/-- The C expression `a - b` at type `unsigned long`: subtraction mod `2^32`.
Both arguments are reduced, so true (unbounded) times can be passed in. -/
def wsub (a b : ℕ) : ℕ := (a % W + W - b % W) % W

/-- Tunable `kMoveRangePx = 100`. -/
def kMoveRangePx : ℤ := 100

/-- Tunable `kMinPauseMs = 22000`. -/
def kMinPauseMs : ℤ := 22000

/-- Tunable `kMaxPauseMs = 42000`. -/
def kMaxPauseMs : ℤ := 42000

/-- Tunable `kMinSteps = 20`. -/
def kMinSteps : ℤ := 20

/-- Tunable `kMaxSteps = 30`. -/
def kMaxSteps : ℤ := 30

/-- Tunable `kStepInterval = 5` (ms between micro-steps). -/
def kStepInterval : ℕ := 5

/-- `(unsigned long)(kHoursToRun * 60.0f * 60.0f * 1000.0f)` with
`kHoursToRun = 8.0f`: the product `28800000` is exactly representable in
`float`, so the run budget is exactly 28800000 ms. -/
def limitMs : ℕ := 28800000

/-- `enum class JiggleState : uint8_t { IDLE, MOVING }`. -/
inductive JiggleState where
  | IDLE
  | MOVING
deriving DecidableEq

/-- `struct MovementSession` (field `steps`/`i` are C `int`, modelled as `ℤ`;
`lastStepMs` is `unsigned long`, modelled as `ℕ` reduced mod `W`). -/
structure MovementSession where
  totalDx : ℤ
  totalDy : ℤ
  steps : ℤ
  prevX : ℤ
  prevY : ℤ
  i : ℤ
  lastStepMs : ℕ
deriving DecidableEq

/-- The global mutable state: `gState`, `gSession`, `gStartMs`,
`gNextActionMs`, plus the LED level driven through `digitalWrite`. -/
structure SysState where
  gState : JiggleState
  gSession : MovementSession
  gStartMs : ℕ
  gNextActionMs : ℕ
  led : Bool
deriving DecidableEq

/-- Observable effects of one `stepSessionIfDue` call: the returned bool,
the optional `Mouse.move (dx, dy)` event, and whether the completion LED
pulse (HIGH, 100 ms, LOW) happened. -/
structure StepOut where
  still : Bool
  move : Option (ℤ × ℤ)
  pulse : Bool
deriving DecidableEq

/-- Inputs consumed by one `stepSessionIfDue` call: the `millis()` reading
at entry, the `millis()` reading inside `scheduleNextIdleWindow` (after the
100 ms pulse, hence separate), and the RNG draw for the next idle window. -/
structure StepIn where
  now : ℕ
  schedNow : ℕ
  pause : ℤ

/-- Inputs consumed by one `loop()` iteration: the `millis()` reading, the
post-pulse `millis()` reading, and the RNG draws that `beginSession` or
`scheduleNextIdleWindow` would consume if they run this iteration. -/
structure PollIn where
  now : ℕ
  schedNow : ℕ
  dx : ℤ
  dy : ℤ
  st : ℤ
  pause : ℤ

/-- Observable effects of one `loop()` iteration. -/
structure LoopOut where
  move : Option (ℤ × ℤ)
  pulse : Bool
deriving DecidableEq

/-- `easeCosine01(t) = 0.5f * (1.0f - cosf(PI * t))`, over `ℝ`. -/
noncomputable def easeCosine01 (t : ℝ) : ℝ := 1 / 2 * (1 - Real.cos (Real.pi * t))

/-- C `lroundf`: round to nearest, halves away from zero.  For `x ≥ 0` this
is Mathlib's `round` (half up); for `x < 0` it is `-round (-x)`. -/
noncomputable def lroundf (x : ℝ) : ℤ := if x < 0 then -round (-x) else round x

/-- The eased cumulative position at micro-step `k` of a burst:
`lroundf(total * easeCosine01(float(k) / float(steps)))` (lines 107-111). -/
noncomputable def cumPos (total steps k : ℤ) : ℤ :=
  lroundf ((total : ℝ) * easeCosine01 ((k : ℝ) / (steps : ℝ)))

/-- `scheduleNextIdleWindow`: the new `gNextActionMs`, namely
`millis() + (unsigned long)random(kMinPauseMs, kMaxPauseMs)` (line 77);
`now` is the `millis()` reading and `pause` the RNG draw. -/
def scheduleNextIdleWindow (now : ℕ) (pause : ℤ) : ℕ := (now + pause.toNat) % W

/-- `beginSession` (lines 80-91), with the three RNG draws passed in:
`dx`, `dy` drawn by `random(-kMoveRangePx, kMoveRangePx + 1)` and `st` by
`random(kMinSteps, kMaxSteps + 1)`. -/
def beginSession (dx dy st : ℤ) (s : SysState) : SysState :=
  { s with
    gSession :=
      { totalDx := dx, totalDy := dy, steps := st,
        prevX := 0, prevY := 0, i := 0, lastStepMs := 0 },
    gState := JiggleState.MOVING }

/-- `stepSessionIfDue` (lines 93-136).  `now` is the `millis()` reading at
entry, `schedNow` the reading inside `scheduleNextIdleWindow` (after the
100 ms completion pulse), `pause` the RNG draw for the next idle window. -/
noncomputable def stepSessionIfDue (s : SysState) (now schedNow : ℕ) (pause : ℤ) :
    SysState × StepOut :=
  let sess := s.gSession
  let sess1 := if sess.i = 0 then { sess with lastStepMs := now % W } else sess
  if wsub now sess1.lastStepMs < kStepInterval then
    ({ s with gSession := sess1 }, ⟨true, none, false⟩)
  else
    let sess2 := { sess1 with lastStepMs := now % W }
    let nextIndex := sess2.i + 1
    let xPos := cumPos sess2.totalDx sess2.steps nextIndex
    let yPos := cumPos sess2.totalDy sess2.steps nextIndex
    let dx := xPos - sess2.prevX
    let dy := yPos - sess2.prevY
    let mv : Option (ℤ × ℤ) := if dx ≠ 0 ∨ dy ≠ 0 then some (dx, dy) else none
    let sess3 := { sess2 with prevX := xPos, prevY := yPos, i := nextIndex }
    if sess3.steps ≤ sess3.i then
      ({ s with gSession := sess3, gState := JiggleState.IDLE,
                gNextActionMs := scheduleNextIdleWindow schedNow pause,
                led := false },
       ⟨false, mv, true⟩)
    else
      ({ s with gSession := sess3 }, ⟨true, mv, false⟩)

/-- `setup()` (lines 139-156): LED low, `gStartMs = millis()`, first idle
window scheduled; `t0` is the `millis()` reading, `pause0` the RNG draw. -/
def setupState (t0 : ℕ) (pause0 : ℤ) : SysState :=
  { gState := JiggleState.IDLE,
    gSession :=
      { totalDx := 0, totalDy := 0, steps := 0,
        prevX := 0, prevY := 0, i := 0, lastStepMs := 0 },
    gStartMs := t0 % W,
    gNextActionMs := scheduleNextIdleWindow t0 pause0,
    led := false }

/-- One `loop()` iteration (lines 158-182). -/
noncomputable def loopStep (s : SysState) (p : PollIn) : SysState × LoopOut :=
  if limitMs ≤ wsub p.now s.gStartMs then
    ({ s with led := true }, ⟨none, false⟩)
  else
    match s.gState with
    | JiggleState.IDLE =>
        if s.gNextActionMs ≤ p.now % W then
          (beginSession p.dx p.dy p.st s, ⟨none, false⟩)
        else
          (s, ⟨none, false⟩)
    | JiggleState.MOVING =>
        let r := stepSessionIfDue s p.now p.schedNow p.pause
        (r.1, ⟨r.2.move, r.2.pulse⟩)

/-- Run `stepSessionIfDue` over a list of poll inputs, collecting outputs. -/
noncomputable def runStepper : SysState → List StepIn → SysState × List StepOut
  | s, [] => (s, [])
  | s, p :: ps =>
      let r := stepSessionIfDue s p.now p.schedNow p.pause
      let rest := runStepper r.1 ps
      (rest.1, r.2 :: rest.2)

/-- Run `loop()` over a list of poll inputs, collecting outputs. -/
noncomputable def runLoop : SysState → List PollIn → SysState × List LoopOut
  | s, [] => (s, [])
  | s, p :: ps =>
      let r := loopStep s p
      let rest := runLoop r.1 ps
      (rest.1, r.2 :: rest.2)

/-- Horizontal component of an optional motion event (`none` counts 0). -/
def moveX : Option (ℤ × ℤ) → ℤ
  | some (a, _) => a
  | none => 0

/-- Vertical component of an optional motion event (`none` counts 0). -/
def moveY : Option (ℤ × ℤ) → ℤ
  | some (_, b) => b
  | none => 0

/-- Sum of the horizontal components of all emitted motion events. -/
def moveSumX (l : List StepOut) : ℤ := (l.map fun o => moveX o.move).sum

/-- Sum of the vertical components of all emitted motion events. -/
def moveSumY (l : List StepOut) : ℤ := (l.map fun o => moveY o.move).sum

/-- Contract of the Arduino RNG: `random(a, b)` returns `x` with
`a ≤ x < b` (lower bound inclusive, upper bound exclusive). -/
def rngOK (a b x : ℤ) : Prop := a ≤ x ∧ x < b

/-- Validity of the inputs of one `loop()` iteration: each RNG draw is in
the range of the corresponding `random` call in the source, and the
post-pulse time reading is not earlier than the entry reading. -/
def pollValid (p : PollIn) : Prop :=
  rngOK (-kMoveRangePx) (kMoveRangePx + 1) p.dx ∧
  rngOK (-kMoveRangePx) (kMoveRangePx + 1) p.dy ∧
  rngOK kMinSteps (kMaxSteps + 1) p.st ∧
  rngOK kMinPauseMs kMaxPauseMs p.pause ∧
  p.now ≤ p.schedNow

/-- States reachable from `setup()` by iterating `loop()` with valid
inputs. -/
inductive Reachable : SysState → Prop
  | init (t0 : ℕ) (p0 : ℤ) (h : rngOK kMinPauseMs kMaxPauseMs p0) :
      Reachable (setupState t0 p0)
  | poll (s : SysState) (p : PollIn) (hs : Reachable s) (hp : pollValid p) :
      Reachable (loopStep s p).1

/-- A live burst: the current micro-step index is below the step count. -/
def liveBurst (s : SysState) : Prop := s.gSession.i < s.gSession.steps

/-- The easing curve vanishes at 0. -/
lemma ease_zero : easeCosine01 0 = 0 := by
  simp [easeCosine01]

/-- The easing curve reaches 1 at 1. -/
lemma ease_one : easeCosine01 1 = 1 := by
  simp [easeCosine01, Real.cos_pi]
  norm_num

/-- `lroundf` fixes integers. -/
lemma lroundf_intCast (d : ℤ) : lroundf (d : ℝ) = d := by
  unfold lroundf
  split_ifs with h
  · have : (-(d : ℝ)) = ((-d : ℤ) : ℝ) := by push_cast; ring
    rw [this, round_intCast]
    ring
  · exact round_intCast d

/-- The cumulative eased position at step 0 is 0. -/
lemma cumPos_zero (d N : ℤ) : cumPos d N 0 = 0 := by
  unfold cumPos
  have h0 : ((0 : ℤ) : ℝ) / (N : ℝ) = 0 := by simp
  rw [h0, ease_zero, mul_zero]
  simpa using lroundf_intCast 0

/-- The cumulative eased position at the last step equals the total. -/
lemma cumPos_last (d N : ℤ) (hN : N ≠ 0) : cumPos d N N = d := by
  unfold cumPos
  have h1 : ((N : ℤ) : ℝ) / (N : ℝ) = 1 := by
    rw [div_self]
    exact_mod_cast hN
  rw [h1, ease_one, mul_one]
  exact lroundf_intCast d

/-- Subtracting a value from its own reduction gives 0. -/
lemma wsub_mod_self (a : ℕ) : wsub a (a % W) = 0 := by
  unfold wsub W
  omega

/-- On a fresh burst (`i == 0`), `stepSessionIfDue` resets `lastStepMs` to
`now` and then finds `now - lastStepMs = 0 < kStepInterval`, so it returns
without executing a micro-step — on every invocation. -/
lemma stepSession_stuck (s : SysState) (now schedNow : ℕ) (pause : ℤ)
    (h : s.gSession.i = 0) :
    stepSessionIfDue s now schedNow pause =
      ({ s with gSession := { s.gSession with lastStepMs := now % W } },
       ⟨true, none, false⟩) := by
  have hgate : wsub now (now % W) < kStepInterval := by
    rw [wsub_mod_self]
    norm_num [kStepInterval]
  simp [stepSessionIfDue, h, hgate]

/-- Along any sequence of `stepSessionIfDue` invocations starting from a
session with `i = 0`, the index stays 0, no state other than `lastStepMs`
changes, and every invocation reports "still moving" with no motion event
and no completion pulse. -/
lemma runStepper_stuck (s : SysState) (ps : List StepIn)
    (h : s.gSession.i = 0) :
    (runStepper s ps).1.gState = s.gState ∧
    (runStepper s ps).1.gNextActionMs = s.gNextActionMs ∧
    (runStepper s ps).1.gSession.i = 0 ∧
    (runStepper s ps).1.led = s.led ∧
    ∀ o ∈ (runStepper s ps).2, o = (⟨true, none, false⟩ : StepOut) := by
  induction ps generalizing s with
  | nil => simpa [runStepper] using h
  | cons p ps ih =>
      simp only [runStepper, stepSession_stuck s p.now p.schedNow p.pause h]
      obtain ⟨a, b, c, d, e⟩ :=
        ih { s with gSession := { s.gSession with lastStepMs := p.now % W } } h
      refine ⟨a, b, c, d, ?_⟩
      intro o ho
      rcases List.mem_cons.1 ho with h1 | h2
      · exact h1
      · exact e o h2

/-- One `stepSessionIfDue` call never changes the burst parameters
(`totalDx`, `totalDy`, `steps`) nor `gStartMs`. -/
lemma stepSession_totals (s : SysState) (now schedNow : ℕ) (pause : ℤ) :
    (stepSessionIfDue s now schedNow pause).1.gSession.totalDx = s.gSession.totalDx ∧
    (stepSessionIfDue s now schedNow pause).1.gSession.totalDy = s.gSession.totalDy ∧
    (stepSessionIfDue s now schedNow pause).1.gSession.steps = s.gSession.steps ∧
    (stepSessionIfDue s now schedNow pause).1.gStartMs = s.gStartMs := by
  unfold stepSessionIfDue
  rcases eq_or_ne s.gSession.i 0 with h0 | h0
  · simp only [h0, reduceIte]
    split_ifs <;> simp_all
  · simp only [if_neg h0]
    split_ifs <;> simp_all

/-- The motion event of one `stepSessionIfDue` call contributes exactly the
change of the cumulative emitted position (zero-delta steps emit nothing
and change nothing). -/
lemma stepSession_delta (s : SysState) (now schedNow : ℕ) (pause : ℤ) :
    moveX (stepSessionIfDue s now schedNow pause).2.move =
      (stepSessionIfDue s now schedNow pause).1.gSession.prevX - s.gSession.prevX ∧
    moveY (stepSessionIfDue s now schedNow pause).2.move =
      (stepSessionIfDue s now schedNow pause).1.gSession.prevY - s.gSession.prevY := by
  unfold stepSessionIfDue
  rcases eq_or_ne s.gSession.i 0 with h0 | h0
  · simp only [h0, reduceIte]
    split_ifs <;> simp_all [moveX, moveY]
  · simp only [if_neg h0]
    split_ifs <;> simp_all [moveX, moveY]

/-- One `stepSessionIfDue` call preserves the invariant "the cumulative
emitted position equals the rounded eased position at the current index". -/
lemma stepSession_inv (s : SysState) (now schedNow : ℕ) (pause : ℤ)
    (hx : s.gSession.prevX = cumPos s.gSession.totalDx s.gSession.steps s.gSession.i)
    (hy : s.gSession.prevY = cumPos s.gSession.totalDy s.gSession.steps s.gSession.i) :
    (stepSessionIfDue s now schedNow pause).1.gSession.prevX =
      cumPos (stepSessionIfDue s now schedNow pause).1.gSession.totalDx
        (stepSessionIfDue s now schedNow pause).1.gSession.steps
        (stepSessionIfDue s now schedNow pause).1.gSession.i ∧
    (stepSessionIfDue s now schedNow pause).1.gSession.prevY =
      cumPos (stepSessionIfDue s now schedNow pause).1.gSession.totalDy
        (stepSessionIfDue s now schedNow pause).1.gSession.steps
        (stepSessionIfDue s now schedNow pause).1.gSession.i := by
  unfold stepSessionIfDue
  rcases eq_or_ne s.gSession.i 0 with h0 | h0
  · simp only [h0, reduceIte]
    split_ifs <;> simp_all
  · simp only [if_neg h0]
    split_ifs <;> simp_all

/-- Over any trace, the summed motion events equal the net change of the
cumulative emitted position (telescoping). -/
lemma runStepper_sum (s : SysState) (ps : List StepIn) :
    moveSumX (runStepper s ps).2 =
      (runStepper s ps).1.gSession.prevX - s.gSession.prevX ∧
    moveSumY (runStepper s ps).2 =
      (runStepper s ps).1.gSession.prevY - s.gSession.prevY := by
  induction ps generalizing s with
  | nil => simp [runStepper, moveSumX, moveSumY]
  | cons p ps ih =>
      simp only [runStepper]
      obtain ⟨ihx, ihy⟩ := ih (stepSessionIfDue s p.now p.schedNow p.pause).1
      obtain ⟨dxe, dye⟩ := stepSession_delta s p.now p.schedNow p.pause
      constructor
      · simp only [moveSumX, List.map_cons, List.sum_cons] at ihx ⊢
        omega
      · simp only [moveSumY, List.map_cons, List.sum_cons] at ihy ⊢
        omega

/-- Over any trace, burst parameters and `gStartMs` are unchanged. -/
lemma runStepper_totals (s : SysState) (ps : List StepIn) :
    (runStepper s ps).1.gSession.totalDx = s.gSession.totalDx ∧
    (runStepper s ps).1.gSession.totalDy = s.gSession.totalDy ∧
    (runStepper s ps).1.gSession.steps = s.gSession.steps ∧
    (runStepper s ps).1.gStartMs = s.gStartMs := by
  induction ps generalizing s with
  | nil => simp [runStepper]
  | cons p ps ih =>
      simp only [runStepper]
      obtain ⟨a, b, c, d⟩ := ih (stepSessionIfDue s p.now p.schedNow p.pause).1
      obtain ⟨a', b', c', d'⟩ := stepSession_totals s p.now p.schedNow p.pause
      exact ⟨a.trans a', b.trans b', c.trans c', d.trans d'⟩

/-- Over any trace, the cumulative-position invariant is preserved. -/
lemma runStepper_inv (s : SysState) (ps : List StepIn)
    (hx : s.gSession.prevX = cumPos s.gSession.totalDx s.gSession.steps s.gSession.i)
    (hy : s.gSession.prevY = cumPos s.gSession.totalDy s.gSession.steps s.gSession.i) :
    (runStepper s ps).1.gSession.prevX =
      cumPos (runStepper s ps).1.gSession.totalDx
        (runStepper s ps).1.gSession.steps (runStepper s ps).1.gSession.i ∧
    (runStepper s ps).1.gSession.prevY =
      cumPos (runStepper s ps).1.gSession.totalDy
        (runStepper s ps).1.gSession.steps (runStepper s ps).1.gSession.i := by
  induction ps generalizing s with
  | nil => simpa [runStepper] using ⟨hx, hy⟩
  | cons p ps ih =>
      simp only [runStepper]
      obtain ⟨hx', hy'⟩ := stepSession_inv s p.now p.schedNow p.pause hx hy
      exact ih (stepSessionIfDue s p.now p.schedNow p.pause).1 hx' hy'

/-- A `stepSessionIfDue` call on a state in MOVING mode with a live burst
keeps mode and burst-liveness in lockstep. -/
lemma stepSession_mode (s : SysState) (now schedNow : ℕ) (pause : ℤ)
    (h : s.gState = JiggleState.MOVING) (hl : liveBurst s) :
    ((stepSessionIfDue s now schedNow pause).1.gState = JiggleState.MOVING ↔
      liveBurst (stepSessionIfDue s now schedNow pause).1) ∧
    ((stepSessionIfDue s now schedNow pause).1.gState = JiggleState.IDLE ↔
      ¬ liveBurst (stepSessionIfDue s now schedNow pause).1) := by
  unfold liveBurst at hl ⊢
  unfold stepSessionIfDue
  rcases eq_or_ne s.gSession.i 0 with h0 | h0
  · simp only [h0, reduceIte]
    split_ifs <;> simp_all
  · simp only [if_neg h0]
    split_ifs <;> simp_all

/-- C1: the claim says that on a fresh burst (`currentStepIndex == 0`) the
first invocation of `stepSessionIfDue` executes the first micro-step
immediately.  The code does the opposite: on the failing input (a freshly
begun burst, polled at 500 ms and then twice more, far beyond any step
interval), every invocation resets `lastStepMs` to `now`, finds
`now - lastStepMs = 0 < kStepInterval`, and returns "not time yet" with no
motion event; the step index remains 0 forever, so the first micro-step is
never executed at all. -/
theorem c1_first_micro_step_never_fires :
    stepSessionIfDue (beginSession 57 (-31) 25 (setupState 0 22000)) 500 500 30000 =
      (⟨JiggleState.MOVING, ⟨57, -31, 25, 0, 0, 0, 500⟩, 0, 22000, false⟩,
       ⟨true, none, false⟩) ∧
    (runStepper (beginSession 57 (-31) 25 (setupState 0 22000))
        [⟨500, 500, 30000⟩, ⟨1500, 1500, 30000⟩, ⟨9999999, 9999999, 30000⟩]).1.gSession.i = 0 ∧
    (runStepper (beginSession 57 (-31) 25 (setupState 0 22000))
        [⟨500, 500, 30000⟩, ⟨1500, 1500, 30000⟩, ⟨9999999, 9999999, 30000⟩]).2 =
      [⟨true, none, false⟩, ⟨true, none, false⟩, ⟨true, none, false⟩] :=
  ⟨rfl, rfl, rfl⟩

/-- C2: over any run of `stepSessionIfDue` invocations that brings a burst
(whose cumulative emitted position matches the rounded eased position at
its current index, as always holds for states the code constructs) to
completion (`i = steps`), the componentwise sum of all emitted deltas is
exactly the remaining displacement; from a fresh burst (`i = 0`) it is
exactly `(totalDx, totalDy)`, for every integer `totalDx`, `totalDy` and
every nonzero step count. -/
theorem c2_burst_sum_exact (s : SysState) (ps : List StepIn)
    (hN : s.gSession.steps ≠ 0)
    (hx : s.gSession.prevX = cumPos s.gSession.totalDx s.gSession.steps s.gSession.i)
    (hy : s.gSession.prevY = cumPos s.gSession.totalDy s.gSession.steps s.gSession.i)
    (hdone : (runStepper s ps).1.gSession.i = s.gSession.steps) :
    moveSumX (runStepper s ps).2 = s.gSession.totalDx - s.gSession.prevX ∧
    moveSumY (runStepper s ps).2 = s.gSession.totalDy - s.gSession.prevY ∧
    (s.gSession.i = 0 →
      moveSumX (runStepper s ps).2 = s.gSession.totalDx ∧
      moveSumY (runStepper s ps).2 = s.gSession.totalDy) := by
  obtain ⟨sx, sy⟩ := runStepper_sum s ps
  obtain ⟨tx, ty, tst, -⟩ := runStepper_totals s ps
  obtain ⟨ix, iy⟩ := runStepper_inv s ps hx hy
  have hfx : (runStepper s ps).1.gSession.prevX = s.gSession.totalDx := by
    rw [ix, tx, tst, hdone]
    exact cumPos_last _ _ hN
  have hfy : (runStepper s ps).1.gSession.prevY = s.gSession.totalDy := by
    rw [iy, ty, tst, hdone]
    exact cumPos_last _ _ hN
  refine ⟨by rw [sx, hfx], by rw [sy, hfy], fun h0 => ⟨?_, ?_⟩⟩
  · rw [sx, hfx, hx, h0, cumPos_zero, sub_zero]
  · rw [sy, hfy, hy, h0, cumPos_zero, sub_zero]

/-- Witness for C2: a burst with `totalDx = 10`, `totalDy = 0`,
`steps = 2`, already at index 1 (the first step never fires, see C1), is
completed by one due poll; the summed emitted deltas equal the remaining
displacement. -/
theorem c2_burst_sum_exact_witness :
    moveSumX (runStepper
      (⟨JiggleState.MOVING, ⟨10, 0, 2, cumPos 10 2 1, cumPos 0 2 1, 1, 0⟩, 0, 22000, false⟩ :
        SysState)
      [⟨1000, 1100, 30000⟩]).2 = 10 - cumPos 10 2 1 :=
  (c2_burst_sum_exact _ _ (by norm_num) rfl rfl (by rfl)).1

/-- C3 counterexample: the terminal condition is not latched.  From the
reachable startup state with `gStartMs = 0`, the poll at 28800000 ms
(elapsed exactly equal to the run budget) takes the terminal branch and
sets the LED on; but the later poll at true time `2^32 + 22000` ms reads a
wrapped elapsed value of 22000 < budget, resumes schedule processing and
starts a new burst — the terminal condition is exited without a restart. -/
theorem c3_terminal_condition_exited :
    Reachable (setupState 0 22000) ∧
    limitMs ≤ wsub 28800000 (setupState 0 22000).gStartMs ∧
    (loopStep (setupState 0 22000) ⟨28800000, 28800000, 0, 0, 20, 30000⟩).1.led = true ∧
    (loopStep (loopStep (setupState 0 22000) ⟨28800000, 28800000, 0, 0, 20, 30000⟩).1
        ⟨4294989296, 4294989296, 57, -31, 25, 30000⟩).1.gState = JiggleState.MOVING :=
  ⟨Reachable.init 0 22000 (by norm_num [rngOK, kMinPauseMs, kMaxPauseMs]),
   by decide, rfl, rfl⟩

/-- C3 (amended): at every poll whose elapsed reading
`(now - runStart) mod 2^32` is at least the run budget — in particular for
all true elapsed times in `[totalRunDuration, 2^32 ms)` — the controller
sets the indicator on, leaves all burst/schedule state untouched, and
emits no motion event and no pulse, regardless of the remaining
burst/schedule state; the behavior persists over any such run of polls. -/
theorem c3_terminal_behavior_before_wrap (s : SysState) (ps : List PollIn)
    (hne : ps ≠ [])
    (h : ∀ p ∈ ps, limitMs ≤ wsub p.now s.gStartMs) :
    (runLoop s ps).1 = { s with led := true } ∧
    ∀ o ∈ (runLoop s ps).2, o = (⟨none, false⟩ : LoopOut) := by
  induction ps generalizing s with
  | nil => cases hne rfl
  | cons p ps ih =>
      have hp := h p (by simp)
      rcases eq_or_ne ps [] with rfl | hne2
      · constructor
        · simp [runLoop, loopStep, if_pos hp]
        · simp [runLoop, loopStep, if_pos hp]
      · have htail : ∀ q ∈ ps,
            limitMs ≤ wsub q.now ({ s with led := true } : SysState).gStartMs := by
          intro q hq
          exact h q (by simp [hq])
        obtain ⟨h1, h2⟩ := ih ({ s with led := true }) hne2 htail
        constructor
        · simp only [runLoop, loopStep, if_pos hp]
          exact h1
        · simp only [runLoop, loopStep, if_pos hp]
          intro o ho
          rcases List.mem_cons.1 ho with rfl | hm
          · rfl
          · exact h2 o hm

/-- Witness for the amended C3: one poll at elapsed exactly the budget
turns the LED on and changes nothing else. -/
theorem c3_terminal_behavior_before_wrap_witness :
    (runLoop (setupState 0 22000) [⟨28800000, 28800000, 0, 0, 20, 30000⟩]).1 =
      { setupState 0 22000 with led := true } :=
  (c3_terminal_behavior_before_wrap _ _ (by simp) (by
    intro p hp
    rw [List.mem_singleton] at hp
    subst hp
    decide)).1

/-- C4 counterexample: the idle-deadline check at line 170 is
`millis() >= gNextActionMs`, an absolute comparison against a stored
deadline, and it yields the wrong result under wraparound.  A 22000 ms
pause scheduled at `millis() = 2^32 - 1000` stores the wrapped deadline
21000; one millisecond later (true elapsed 1 ms < 22000 ms) the comparison
already fires and the reachable startup state starts a burst. -/
theorem c4_deadline_comparison_wrap_unsafe :
    Reachable (setupState 4294966296 22000) ∧
    (setupState 4294966296 22000).gNextActionMs = 21000 ∧
    (loopStep (setupState 4294966296 22000)
        ⟨4294966297, 4294966297, 57, -31, 25, 30000⟩).1.gState = JiggleState.MOVING ∧
    (4294966297 - 4294966296 : ℕ) = 1 ∧ (1 : ℕ) < 22000 :=
  ⟨Reachable.init 4294966296 22000 (by norm_num [rngOK, kMinPauseMs, kMaxPauseMs]),
   rfl, rfl, rfl, by norm_num⟩

/-- C4 (amended): the two subtraction-form comparisons of the program —
the step-interval gate `now - lastStepMs < kStepInterval` and the budget
check `millis() - gStartMs >= limitMs`, both of shape `wsub` — compute the
true elapsed duration and hence compare correctly even across counter
wraparound, whenever the true elapsed duration is below `2^32` ms; the
idle-deadline check is not of this form (see the counterexample). -/
theorem c4_subtraction_comparisons_wrap_safe (t0 t1 : ℕ)
    (h0 : t0 ≤ t1) (h1 : t1 - t0 < W) :
    wsub t1 t0 = t1 - t0 ∧
    (wsub t1 t0 < kStepInterval ↔ t1 - t0 < kStepInterval) ∧
    (limitMs ≤ wsub t1 t0 ↔ limitMs ≤ t1 - t0) := by
  unfold wsub kStepInterval limitMs
  unfold W at h1 ⊢
  refine ⟨by omega, by omega, by omega⟩

/-- Witness for the amended C4: a duration of 22001 ms measured across the
`2^32` wrap point is computed exactly by the subtraction form. -/
theorem c4_subtraction_comparisons_wrap_safe_witness :
    wsub 4294989296 4294967295 = 22001 :=
  (c4_subtraction_comparisons_wrap_safe 4294967295 4294989296
    (by norm_num) (by norm_num [W])).1

/-- C5: for a live burst past its first step (`i >= 1`), when
`now - lastStepMs < kStepInterval` the call `stepSessionIfDue` changes no
state at all, emits no motion event and no pulse, and reports
"still moving". -/
theorem c5_no_step_before_interval (s : SysState) (now schedNow : ℕ) (pause : ℤ)
    (hi : 1 ≤ s.gSession.i)
    (hgate : wsub now s.gSession.lastStepMs < kStepInterval) :
    stepSessionIfDue s now schedNow pause = (s, ⟨true, none, false⟩) := by
  unfold stepSessionIfDue
  have h0 : ¬ s.gSession.i = 0 := by omega
  simp only [if_neg h0]
  simp [hgate]

/-- Witness for C5: a burst at index 1, last stepped at 100 ms, polled at
102 ms (2 ms < 5 ms), is returned unchanged with no emission. -/
theorem c5_no_step_before_interval_witness :
    stepSessionIfDue ⟨JiggleState.MOVING, ⟨10, 0, 2, 5, 0, 1, 100⟩, 0, 22000, false⟩
        102 102 30000 =
      (⟨JiggleState.MOVING, ⟨10, 0, 2, 5, 0, 1, 100⟩, 0, 22000, false⟩,
       ⟨true, none, false⟩) :=
  c5_no_step_before_interval _ 102 102 30000 (by decide) (by decide)

/-- C6: in every reachable state, `gState = MOVING` exactly when the
session is a live burst (`i < steps`), and `gState = IDLE` exactly when it
is not; `setup()`, `beginSession` and `stepSessionIfDue` as invoked by the
poll loop all preserve this invariant (the next-burst deadline is a plain
word of state in this embedding, so its well-definedness is immediate). -/
theorem c6_mode_matches_live_burst (s : SysState) (h : Reachable s) :
    (s.gState = JiggleState.MOVING ↔ liveBurst s) ∧
    (s.gState = JiggleState.IDLE ↔ ¬ liveBurst s) := by
  induction h with
  | init t0 p0 hp => simp [setupState, liveBurst]
  | poll s p hs hp ih =>
      obtain ⟨st, sess, start, dl, led⟩ := s
      unfold loopStep
      split_ifs with hterm hdl
      · exact ih
      · dsimp only
        cases st with
        | IDLE =>
            obtain ⟨hdx, hdy, hstp, hpp, hsched⟩ := hp
            unfold rngOK kMinSteps kMaxSteps at hstp
            constructor <;> simp [beginSession, liveBurst] <;> omega
        | MOVING =>
            dsimp only
            exact stepSession_mode ⟨JiggleState.MOVING, sess, start, dl, led⟩
              p.now p.schedNow p.pause rfl (ih.1.mp rfl)
      · dsimp only
        cases st with
        | IDLE => exact ih
        | MOVING =>
            dsimp only
            exact stepSession_mode ⟨JiggleState.MOVING, sess, start, dl, led⟩
              p.now p.schedNow p.pause rfl (ih.1.mp rfl)

/-- Witness for C6: the invariant holds at the reachable startup state. -/
theorem c6_mode_matches_live_burst_witness :
    ((setupState 0 22000).gState = JiggleState.MOVING ↔ liveBurst (setupState 0 22000)) ∧
    ((setupState 0 22000).gState = JiggleState.IDLE ↔ ¬ liveBurst (setupState 0 22000)) :=
  c6_mode_matches_live_burst _
    (Reachable.init 0 22000 (by norm_num [rngOK, kMinPauseMs, kMaxPauseMs]))

/-- C7 counterexample: the claim says the pause is drawn from the
inclusive range `[kMinPauseMs, kMaxPauseMs]`, but the call
`random(kMinPauseMs, kMaxPauseMs)` excludes its upper bound: 42000 is not
a possible draw (41999 is the largest one). -/
theorem c7_max_pause_not_drawn :
    ¬ rngOK kMinPauseMs kMaxPauseMs 42000 ∧
    rngOK kMinPauseMs kMaxPauseMs 41999 ∧
    (42000 : ℤ) = kMaxPauseMs := by
  refine ⟨?_, ?_, ?_⟩ <;> norm_num [rngOK, kMinPauseMs, kMaxPauseMs]

/-- C7 (amended): for every `scheduleNextIdleWindow` call at time `now`
(not within 42000 ms of the counter wrap) and every possible draw of
`random(kMinPauseMs, kMaxPauseMs)`, the new deadline is `now + pause` and
lies in `[now + 22000, now + 41999]` — inside `[now + minPause,
now + maxPause]`, but the upper endpoint `now + 42000` is never attained. -/
theorem c7_deadline_within_window (now : ℕ) (p : ℤ)
    (hp : rngOK kMinPauseMs kMaxPauseMs p) (hw : now + 42000 ≤ W) :
    scheduleNextIdleWindow now p = now + p.toNat ∧
    now + 22000 ≤ scheduleNextIdleWindow now p ∧
    scheduleNextIdleWindow now p ≤ now + 41999 := by
  obtain ⟨h1, h2⟩ := hp
  unfold kMinPauseMs at h1
  unfold kMaxPauseMs at h2
  unfold scheduleNextIdleWindow
  unfold W at hw ⊢
  refine ⟨?_, ?_, ?_⟩ <;> omega

/-- Witness for the amended C7: scheduling at time 0 with the draw 22000
produces deadline 22000, within the window. -/
theorem c7_deadline_within_window_witness :
    scheduleNextIdleWindow 0 22000 ≤ 0 + 41999 :=
  (c7_deadline_within_window 0 22000
    (by norm_num [rngOK, kMinPauseMs, kMaxPauseMs]) (by norm_num [W])).2.2

/-- C8: the easing function satisfies
`easeCosine01 t = 0.5 * (1 - cos (pi * t))`, with value 0 at 0, value 1
at 1, and is non-decreasing on `[0, 1]`. -/
theorem c8_easing_properties :
    easeCosine01 0 = 0 ∧ easeCosine01 1 = 1 ∧
    MonotoneOn easeCosine01 (Set.Icc (0 : ℝ) 1) ∧
    ∀ t : ℝ, easeCosine01 t = 1 / 2 * (1 - Real.cos (Real.pi * t)) := by
  refine ⟨ease_zero, ease_one, ?_, fun t => rfl⟩
  intro a ha b hb hab
  unfold easeCosine01
  have hc : Real.cos (Real.pi * b) ≤ Real.cos (Real.pi * a) := by
    apply Real.cos_le_cos_of_nonneg_of_le_pi
    · exact mul_nonneg Real.pi_pos.le ha.1
    · calc Real.pi * b ≤ Real.pi * 1 :=
            mul_le_mul_of_nonneg_left hb.2 Real.pi_pos.le
          _ = Real.pi := mul_one _
    · exact mul_le_mul_of_nonneg_left hab Real.pi_pos.le
  linarith

/-- Witness for C8: monotonicity applied at the endpoints of `[0, 1]`. -/
theorem c8_easing_properties_witness : easeCosine01 0 ≤ easeCosine01 1 :=
  c8_easing_properties.2.2.1 (Set.mem_Icc.2 ⟨le_refl 0, zero_le_one⟩)
    (Set.mem_Icc.2 ⟨zero_le_one, le_refl 1⟩) zero_le_one

/-- C9: the claim's scenario burst (`totalDx = 10`, `totalDy = 0`,
`stepCount = 2`) should emit `(5, 0)` twice.  On the code, polling the
freshly begun scenario burst repeatedly (at 0 ms, 1000 ms, 2000 ms — far
beyond any step interval) emits no motion event at all and the step index
never leaves 0: the two micro-steps never execute (same defect as C1). -/
theorem c9_scenario_emits_nothing :
    (runStepper (beginSession 10 0 2 (setupState 0 22000))
        [⟨0, 0, 30000⟩, ⟨1000, 1000, 30000⟩, ⟨2000, 2000, 30000⟩]).2 =
      [⟨true, none, false⟩, ⟨true, none, false⟩, ⟨true, none, false⟩] ∧
    (runStepper (beginSession 10 0 2 (setupState 0 22000))
        [⟨0, 0, 30000⟩, ⟨1000, 1000, 30000⟩, ⟨2000, 2000, 30000⟩]).1.gSession.i = 0 :=
  ⟨rfl, rfl⟩

/-- C10: the claim says a burst sampled with `totalDx = totalDy = 0` emits
nothing yet still advances through all its steps, pulses the indicator on
completion and schedules the next idle window.  On the code, polling such
a fresh burst (steps = 20) repeatedly emits nothing (as claimed) but the
burst never advances past index 0, never pulses, stays in MOVING mode and
never reschedules `gNextActionMs` (same defect as C1). -/
theorem c10_zero_burst_never_advances :
    (runStepper (beginSession 0 0 20 (setupState 0 22000))
        [⟨0, 0, 30000⟩, ⟨1000, 1000, 30000⟩, ⟨2000, 2000, 30000⟩]).2 =
      [⟨true, none, false⟩, ⟨true, none, false⟩, ⟨true, none, false⟩] ∧
    (runStepper (beginSession 0 0 20 (setupState 0 22000))
        [⟨0, 0, 30000⟩, ⟨1000, 1000, 30000⟩, ⟨2000, 2000, 30000⟩]).1 =
      ⟨JiggleState.MOVING, ⟨0, 0, 20, 0, 0, 0, 2000⟩, 0, 22000, false⟩ :=
  ⟨rfl, rfl⟩
